import Mathlib

/-!
Shallow embedding of `ionyx/experiment/cross_validation.py`.

The module defines two cross-validation routines built on four external
collaborators (a transform pipeline `fit_transforms` / `apply_transforms`,
a scorer `score`, and a caller-supplied model with `fit` / `predict`).
Collaborators are kept abstract as function parameters.  Datasets are
lists of rows (`List ρ` for features, `List ℚ` for labels), scores are
rationals, and the opaque metric name is an abstract type `σ`.

`cross_validate` builds its folds with `sklearn.cross_validation.KFold`
with `shuffle=True, random_state=1337`; the order in which the seeded RNG
leaves the index array is external, so the shuffled index array is a
parameter `idxs` (the unshuffled case is `idxs = List.range n`).  KFold
splits the shuffled index array into `k` consecutive blocks (the first
`n % k` blocks one element longer), uses each block as the test set and
its complement as the train set, both emitted in increasing index order.

`sequence_cross_validate` slices with Python semantics (negative indices
wrap from the end, out-of-range bounds clamp), and `/` on Python 2 ints
is floor division (`Int.fdiv`).  Console printing, timing and the
optional matplotlib plot are side effects with no influence on the
returned value and are omitted.
-/

namespace Ionyx

/-- Resolution of one Python slice bound against a list of length `n`:
a negative index counts from the end (clamped below at 0), a
non-negative one is clamped above at `n`. -/
def sliceIdx (n : ℕ) (i : ℤ) : ℕ :=
  if i < 0 then ((n : ℤ) + i).toNat else min i.toNat n

/-- Python slice `l[a:b]` (step 1). -/
def pySlice {α : Type} (l : List α) (a b : ℤ) : List α :=
  (l.take (sliceIdx l.length b)).drop (sliceIdx l.length a)

/-- NumPy fancy indexing `X[index_list]`: the rows of `X` at the given
positions (total via a default row, as folds only hold valid indices). -/
def selRows {α : Type} [Inhabited α] (X : List α) (idx : List ℕ) : List α :=
  idx.map (fun j => X.getD j default)

/-- Size of fold `i` in sklearn `KFold(n, k)`: `n / k`, plus one for the
first `n % k` folds. -/
def kfoldSize (n k i : ℕ) : ℕ :=
  n / k + if i < n % k then 1 else 0

/-- Offset of fold `i`'s test block inside the (shuffled) index array. -/
def kfoldStart (n k i : ℕ) : ℕ :=
  i * (n / k) + min i (n % k)

/-- Test block of fold `i`: the `i`-th consecutive slice of the shuffled
index array `idxs`. -/
def kfoldTest (idxs : List ℕ) (k i : ℕ) : List ℕ :=
  (idxs.drop (kfoldStart idxs.length k i)).take (kfoldSize idxs.length k i)

/-- `list(KFold(n, n_folds=k, shuffle=True, random_state=1337))` where
`idxs` is the RNG-shuffled copy of `arange(n)`: each fold is the pair
`(train_index, test_index)`, both in increasing order, the test indices
being those in fold `i`'s block of `idxs` and the train indices the
complement. -/
def kfold (idxs : List ℕ) (k : ℕ) : List (List ℕ × List ℕ) :=
  (List.range k).map (fun i =>
    ((List.range idxs.length).filter (fun j => ¬ j ∈ kfoldTest idxs k i),
     (List.range idxs.length).filter (fun j => j ∈ kfoldTest idxs k i)))

/-- Calls made to the caller-supplied model inside the fold loop. -/
inductive CVEvent : Type
  | fitCall : CVEvent
  | predictCall : CVEvent
deriving DecidableEq

/-- State threaded through the fold loop of `cross_validate`: the
`transforms` variable (reassigned every fold), the per-fold training
scores `y_train_scores`, the accumulated evaluation predictions `y_pred`
and true labels `y_true`, and the trace of model calls. -/
structure CVState (τ : Type) : Type where
  transforms : τ
  trainScores : List ℚ
  yPred : List ℚ
  yTrue : List ℚ
  events : List CVEvent

variable {ρ τ μ σ : Type} [Inhabited ρ]

variable (fitT : List ρ → List ℚ → τ → τ)
variable (applyT : List ρ → τ → List ρ)
variable (modelFit : List ρ → List ℚ → μ)
variable (modelPredict : μ → List ρ → List ℚ)
variable (scoreFn : List ℚ → List ℚ → σ → ℚ)

/-- Body of the fold loop of `cross_validate`: select the train and
evaluation rows, refit the transforms (into the reassigned `transforms`
variable), apply them to both splits, fit the model on the transformed
training split, record the training score (one `predict` on the training
split), and append the evaluation predictions (one more `predict`) and
the true evaluation labels. -/
def cvFoldStep (X : List ρ) (y : List ℚ) (metric : σ)
    (st : CVState τ) (fold : List ℕ × List ℕ) : CVState τ :=
  let X_train := selRows X fold.1
  let y_train := selRows y fold.1
  let X_eval := selRows X fold.2
  let y_eval := selRows y fold.2
  let t := fitT X_train y_train st.transforms
  let X_train2 := applyT X_train t
  let X_eval2 := applyT X_eval t
  let m := modelFit X_train2 y_train
  { transforms := t
    trainScores := st.trainScores ++ [scoreFn y_train (modelPredict m X_train2) metric]
    yPred := st.yPred ++ modelPredict m X_eval2
    yTrue := st.yTrue ++ y_eval
    events := st.events ++ [CVEvent.fitCall, CVEvent.predictCall, CVEvent.predictCall] }

/-- Fold loop of `cross_validate` over an explicit fold list, starting
from the caller-supplied transform specification `t0` and empty
accumulators. -/
def cross_validate_folds (X : List ρ) (y : List ℚ) (metric : σ) (t0 : τ)
    (folds : List (List ℕ × List ℕ)) : CVState τ :=
  folds.foldl (cvFoldStep fitT applyT modelFit modelPredict scoreFn X y metric)
    { transforms := t0, trainScores := [], yPred := [], yTrue := [], events := [] }

/-- `cross_validate(X, y, model, metric, transforms, n_folds)`: run the
fold loop over `list(KFold(y.shape[0], n_folds, shuffle=True,
random_state=1337))` (shuffle outcome `idxs`) and return
`score(y_true, y_pred, metric)` over the accumulated arrays. -/
def cross_validate (X : List ρ) (y : List ℚ) (metric : σ) (t0 : τ)
    (idxs : List ℕ) (n_folds : ℕ) : ℚ :=
  let final := cross_validate_folds fitT applyT modelFit modelPredict scoreFn
    X y metric t0 (kfold idxs n_folds)
  scoreFn final.yTrue final.yPred metric

/-- String constant the `strategy` argument is compared against. -/
def walkForward : String := "walk-forward"

/-- String constant the `window_type` argument is compared against. -/
def fixedWindow : String := "fixed"

/-- Default `strategy` value (any value other than `walk-forward` takes
the same branch). -/
def traditional : String := "traditional"

/-- Default `window_type` value (any value other than `fixed` takes the
same branch). -/
def cumulative : String := "cumulative"

/-- Configuration arguments of `sequence_cross_validate`. -/
structure SeqConfig : Type where
  n_folds : ℤ
  strategy : String
  window_type : String
  min_window : ℤ
  forecast_range : ℤ

/-- Number of folds actually iterated: under `walk-forward` the caller's
`n_folds` is overwritten with `train_count - min_window -
forecast_range`. -/
def SeqConfig.nFolds (c : SeqConfig) (L : ℤ) : ℤ :=
  if c.strategy = walkForward then L - c.min_window - c.forecast_range else c.n_folds

/-- `fold_size`: 1 under `walk-forward`, otherwise the Python 2 integer
division `train_count / n_folds`. -/
def SeqConfig.foldSize (c : SeqConfig) (L : ℤ) : ℤ :=
  if c.strategy = walkForward then 1 else Int.fdiv L c.n_folds

/-- `fold_start` for fold `i`: `i * fold_size` under `fixed`, else 0. -/
def SeqConfig.foldStart (c : SeqConfig) (L i : ℤ) : ℤ :=
  if c.window_type = fixedWindow then i * c.foldSize L else 0

/-- `fold_end = (i + 1) * fold_size + min_window`. -/
def SeqConfig.foldEnd (c : SeqConfig) (L i : ℤ) : ℤ :=
  (i + 1) * c.foldSize L + c.min_window

/-- `fold_train_end = fold_end - forecast_range`. -/
def SeqConfig.foldTrainEnd (c : SeqConfig) (L i : ℤ) : ℤ :=
  c.foldEnd L i - c.forecast_range

/-- `range(n)` over the integers (empty when `n ≤ 0`, as in Python). -/
def intRange (n : ℤ) : List ℤ :=
  (List.range n.toNat).map (fun (i : ℕ) => (i : ℤ))

/-- Body of the fold loop of `sequence_cross_validate`: slice the train
and evaluation windows, refit the transforms (reassigned variable),
apply to both splits, fit the model on the transformed training split,
predict the evaluation split, and append `score(y, y_pred, metric)` —
scored against the full label vector `y` — to the score list. -/
def seqFoldStep (X : List ρ) (y : List ℚ) (metric : σ) (c : SeqConfig)
    (st : τ × List ℚ) (i : ℤ) : τ × List ℚ :=
  let L : ℤ := X.length
  let X_train := pySlice X (c.foldStart L i) (c.foldTrainEnd L i)
  let X_eval := pySlice X (c.foldTrainEnd L i) (c.foldEnd L i)
  let y_train := pySlice y (c.foldStart L i) (c.foldTrainEnd L i)
  let t := fitT X_train y_train st.1
  let X_train2 := applyT X_train t
  let X_eval2 := applyT X_eval t
  let m := modelFit X_train2 y_train
  let y_pred := modelPredict m X_eval2
  (t, st.2 ++ [scoreFn y y_pred metric])

/-- `sequence_cross_validate(X, y, model, metric, transforms, n_folds,
strategy, window_type, min_window, forecast_range, plot)`: run the fold
loop for `i in range(n_folds)` (after the `walk-forward` override) and
return `np.mean(scores)`. -/
def sequence_cross_validate (X : List ρ) (y : List ℚ) (metric : σ) (t0 : τ)
    (c : SeqConfig) : ℚ :=
  let scores := ((intRange (c.nFolds (X.length : ℤ))).foldl
    (seqFoldStep fitT applyT modelFit modelPredict scoreFn X y metric c)
    (t0, ([] : List ℚ))).2
  scores.sum / (scores.length : ℚ)

/-- Value of the reassigned `transforms` variable of `cross_validate`
after processing a fold list, starting from transform state `t`. -/
def cvChain (X : List ρ) (y : List ℚ) : List (List ℕ × List ℕ) → τ → τ
  | [], t => t
  | f :: fs, t => cvChain X y fs (fitT (selRows X f.1) (selRows y f.1) t)

/-- Per-fold blocks of evaluation predictions of `cross_validate`,
threading the reassigned transforms through the folds. -/
def cvPredBlocks (X : List ρ) (y : List ℚ) :
    List (List ℕ × List ℕ) → τ → List (List ℚ)
  | [], _ => []
  | f :: fs, t =>
    let X_train := selRows X f.1
    let y_train := selRows y f.1
    let t2 := fitT X_train y_train t
    let m := modelFit (applyT X_train t2) y_train
    modelPredict m (applyT (selRows X f.2) t2)
      :: cvPredBlocks X y fs t2

/-- Per-fold training scores (`y_train_scores`) of `cross_validate`,
threading the reassigned transforms through the folds. -/
def cvTrainScoreBlocks (X : List ρ) (y : List ℚ) (metric : σ) :
    List (List ℕ × List ℕ) → τ → List ℚ
  | [], _ => []
  | f :: fs, t =>
    let X_train := selRows X f.1
    let y_train := selRows y f.1
    let t2 := fitT X_train y_train t
    let X_train2 := applyT X_train t2
    let m := modelFit X_train2 y_train
    scoreFn y_train (modelPredict m X_train2) metric
      :: cvTrainScoreBlocks X y metric fs t2

/-- Return value of the `cross_validate` fold loop over an explicit fold
list: `score(y_true, y_pred, metric)` over the accumulated arrays. -/
def cvReturn (X : List ρ) (y : List ℚ) (metric : σ) (t0 : τ)
    (folds : List (List ℕ × List ℕ)) : ℚ :=
  let final := cross_validate_folds fitT applyT modelFit modelPredict scoreFn
    X y metric t0 folds
  scoreFn final.yTrue final.yPred metric

/-- Value of the reassigned `transforms` variable of
`sequence_cross_validate` entering fold `i`. -/
def seqTransAt (X : List ρ) (y : List ℚ) (c : SeqConfig) (t0 : τ) : ℕ → τ
  | 0 => t0
  | n + 1 =>
    fitT (pySlice X (c.foldStart (X.length : ℤ) (n : ℤ)) (c.foldTrainEnd (X.length : ℤ) (n : ℤ)))
      (pySlice y (c.foldStart (X.length : ℤ) (n : ℤ)) (c.foldTrainEnd (X.length : ℤ) (n : ℤ)))
      (seqTransAt X y c t0 n)

/-- Score appended by fold `i` of `sequence_cross_validate`: the scorer
applied to the full label vector `y` and the prediction, over the
transformed evaluation window, of the model fit on the transformed
training window. -/
def seqScoreAt (X : List ρ) (y : List ℚ) (metric : σ) (c : SeqConfig)
    (t0 : τ) (i : ℕ) : ℚ :=
  let L : ℤ := X.length
  let X_train := pySlice X (c.foldStart L (i : ℤ)) (c.foldTrainEnd L (i : ℤ))
  let y_train := pySlice y (c.foldStart L (i : ℤ)) (c.foldTrainEnd L (i : ℤ))
  let t := fitT X_train y_train (seqTransAt fitT X y c t0 i)
  let X_train2 := applyT X_train t
  scoreFn y
    (modelPredict (modelFit X_train2 y_train)
      (applyT (pySlice X (c.foldTrainEnd L (i : ℤ)) (c.foldEnd L (i : ℤ))) t))
    metric

/-- Evaluation predictions of one fold of `cross_validate` when the
transform refit does not depend on the incoming transform state (`t0` is
then an arbitrary canonical state). -/
def cvPredOf (X : List ρ) (y : List ℚ) (t0 : τ) (f : List ℕ × List ℕ) : List ℚ :=
  let X_train := selRows X f.1
  let y_train := selRows y f.1
  let t := fitT X_train y_train t0
  modelPredict (modelFit (applyT X_train t) y_train) (applyT (selRows X f.2) t)

/-- Modelled from the spec: `score` is defined in `ionyx.utils`, which is
not under `src/`; per §6 it "computes a named evaluation metric" over
"predicted vs. true labels", and §8 states the aggregate is invariant to
fold processing order because it is computed over the full concatenated
prediction set — i.e. the scorer depends only on the multiset of
(true label, predicted label) pairs. -/
def ScorerPermInvariant (scoreFn : List ℚ → List ℚ → σ → ℚ) : Prop :=
  ∀ (metric : σ) (ps qs : List (ℚ × ℚ)), ps.Perm qs →
    scoreFn (ps.map Prod.fst) (ps.map Prod.snd) metric
      = scoreFn (qs.map Prod.fst) (qs.map Prod.snd) metric

/-- Modelled from the spec: `fit_transforms` is defined in `ionyx.utils`,
which is not under `src/`; per §3 the transform set's "lifecycle is
re-created per fold (refit each fold) and discarded after", so the
fitted result depends only on the training split passed in, not on the
incoming transform state. -/
def TransformsRefitPure (fitT : List ρ → List ℚ → τ → τ) : Prop :=
  ∀ (Xs : List ρ) (ys : List ℚ) (t t' : τ), fitT Xs ys t = fitT Xs ys t'

/-- Modelled from the spec: `apply_transforms` (external collaborator,
§6) maps a dataset split to a transformed split, preserving the row
count (§3: features and targets keep matching row counts). -/
def ApplyPreservesLength (applyT : List ρ → τ → List ρ) : Prop :=
  ∀ (Xs : List ρ) (t : τ), (applyT Xs t).length = Xs.length

/-- Modelled from the spec: the caller-supplied model (external
collaborator, §6) produces one prediction per input row. -/
def PredictPreservesLength (modelPredict : μ → List ρ → List ℚ) : Prop :=
  ∀ (m : μ) (Xs : List ρ), (modelPredict m Xs).length = Xs.length

theorem perm_flatten_of_perm {α : Type} {L1 L2 : List (List α)}
    (h : L1.Perm L2) : L1.flatten.Perm L2.flatten := by
  induction h with
  | nil => exact .rfl
  | cons x _ ih => simpa using ih.append_left x
  | swap x y l =>
    simp only [List.flatten_cons, ← List.append_assoc]
    exact List.perm_append_comm.append_right _
  | trans _ _ ih1 ih2 => exact ih1.trans ih2

theorem cvFoldl_eq (X : List ρ) (y : List ℚ) (metric : σ)
    (folds : List (List ℕ × List ℕ)) (s : CVState τ) :
    folds.foldl (cvFoldStep fitT applyT modelFit modelPredict scoreFn X y metric) s =
      { transforms := cvChain fitT X y folds s.transforms
        trainScores := s.trainScores ++
          cvTrainScoreBlocks fitT applyT modelFit modelPredict scoreFn X y metric folds s.transforms
        yPred := s.yPred ++
          (cvPredBlocks fitT applyT modelFit modelPredict X y folds s.transforms).flatten
        yTrue := s.yTrue ++ (folds.map (fun f => selRows y f.2)).flatten
        events := s.events ++
          (folds.map (fun _ => [CVEvent.fitCall, CVEvent.predictCall, CVEvent.predictCall])).flatten } := by
  induction folds generalizing s with
  | nil => simp [cvChain, cvTrainScoreBlocks, cvPredBlocks]
  | cons f fs ih =>
    rw [List.foldl_cons, ih]
    simp [cvFoldStep, cvChain, cvTrainScoreBlocks, cvPredBlocks, List.append_assoc]

theorem seqLoop_fst (X : List ρ) (y : List ℚ) (metric : σ) (c : SeqConfig)
    (t0 : τ) (n : ℕ) (acc : List ℚ) :
    (((List.range n).map (fun (i : ℕ) => (i : ℤ))).foldl
      (seqFoldStep fitT applyT modelFit modelPredict scoreFn X y metric c) (t0, acc)).1
      = seqTransAt fitT X y c t0 n := by
  induction n generalizing acc with
  | zero => simp [seqTransAt]
  | succ n ih =>
    rw [List.range_succ, List.map_append, List.foldl_append]
    simp only [List.map_cons, List.map_nil, List.foldl_cons, List.foldl_nil]
    rw [seqFoldStep]
    simp only [seqTransAt]
    rw [ih]

theorem seqLoop_snd (X : List ρ) (y : List ℚ) (metric : σ) (c : SeqConfig)
    (t0 : τ) (n : ℕ) (acc : List ℚ) :
    (((List.range n).map (fun (i : ℕ) => (i : ℤ))).foldl
      (seqFoldStep fitT applyT modelFit modelPredict scoreFn X y metric c) (t0, acc)).2
      = acc ++ (List.range n).map
          (seqScoreAt fitT applyT modelFit modelPredict scoreFn X y metric c t0) := by
  induction n generalizing acc with
  | zero => simp
  | succ n ih =>
    rw [List.range_succ, List.map_append, List.foldl_append]
    simp only [List.map_cons, List.map_nil, List.foldl_cons, List.foldl_nil]
    rw [seqFoldStep]
    simp only [List.map_append]
    rw [ih, seqLoop_fst fitT applyT modelFit modelPredict scoreFn X y metric c t0 n acc]
    simp [seqScoreAt, List.append_assoc]

/-- C1: in `sequence_cross_validate`, every fold fits the model on the
(transformed) training split and predicts on the (transformed)
evaluation split, the per-fold score calls the scorer with the FULL
label vector `y` as the true labels (not the evaluation slice), and the
returned value is the arithmetic mean of the per-fold scores. -/
theorem seq_cv_mean_of_full_label_scores (X : List ρ) (y : List ℚ)
    (metric : σ) (t0 : τ) (c : SeqConfig) :
    sequence_cross_validate fitT applyT modelFit modelPredict scoreFn X y metric t0 c
      = (((List.range (c.nFolds (X.length : ℤ)).toNat).map
            (seqScoreAt fitT applyT modelFit modelPredict scoreFn X y metric c t0)).sum)
        / (((List.range (c.nFolds (X.length : ℤ)).toNat).map
            (seqScoreAt fitT applyT modelFit modelPredict scoreFn X y metric c t0)).length : ℚ)
    ∧ ∀ i : ℕ,
      seqScoreAt fitT applyT modelFit modelPredict scoreFn X y metric c t0 i
        = scoreFn y
            (modelPredict
              (modelFit
                (applyT
                  (pySlice X (c.foldStart (X.length : ℤ) (i : ℤ)) (c.foldTrainEnd (X.length : ℤ) (i : ℤ)))
                  (fitT
                    (pySlice X (c.foldStart (X.length : ℤ) (i : ℤ)) (c.foldTrainEnd (X.length : ℤ) (i : ℤ)))
                    (pySlice y (c.foldStart (X.length : ℤ) (i : ℤ)) (c.foldTrainEnd (X.length : ℤ) (i : ℤ)))
                    (seqTransAt fitT X y c t0 i)))
                (pySlice y (c.foldStart (X.length : ℤ) (i : ℤ)) (c.foldTrainEnd (X.length : ℤ) (i : ℤ))))
              (applyT
                (pySlice X (c.foldTrainEnd (X.length : ℤ) (i : ℤ)) (c.foldEnd (X.length : ℤ) (i : ℤ)))
                (fitT
                  (pySlice X (c.foldStart (X.length : ℤ) (i : ℤ)) (c.foldTrainEnd (X.length : ℤ) (i : ℤ)))
                  (pySlice y (c.foldStart (X.length : ℤ) (i : ℤ)) (c.foldTrainEnd (X.length : ℤ) (i : ℤ)))
                  (seqTransAt fitT X y c t0 i))))
            metric := by
  constructor
  · unfold sequence_cross_validate intRange
    rw [seqLoop_snd]
    simp
  · intro i
    rfl

/-- C2: `cross_validate` returns a single scorer call over the
concatenation of all folds' evaluation predictions against the
concatenation of all folds' true evaluation labels — not an average of
per-fold scores. -/
theorem cross_validate_single_concatenated_score (X : List ρ) (y : List ℚ)
    (metric : σ) (t0 : τ) (idxs : List ℕ) (k : ℕ) :
    cross_validate fitT applyT modelFit modelPredict scoreFn X y metric t0 idxs k
      = scoreFn (((kfold idxs k).map (fun f => selRows y f.2)).flatten)
          ((cvPredBlocks fitT applyT modelFit modelPredict X y (kfold idxs k) t0).flatten)
          metric := by
  unfold cross_validate cross_validate_folds
  rw [cvFoldl_eq]
  simp

/-- C9: under strategy 'walk-forward' the returned score does not depend
on the caller-supplied n_folds argument, which is unconditionally
overwritten before use. -/
theorem walk_forward_ignores_n_folds (X : List ρ) (y : List ℚ) (metric : σ)
    (t0 : τ) (k k' : ℤ) (w : String) (mw fr : ℤ) :
    sequence_cross_validate fitT applyT modelFit modelPredict scoreFn X y metric t0
        ⟨k, walkForward, w, mw, fr⟩
      = sequence_cross_validate fitT applyT modelFit modelPredict scoreFn X y metric t0
        ⟨k', walkForward, w, mw, fr⟩ := by
  have hstep :
      seqFoldStep fitT applyT modelFit modelPredict scoreFn X y metric
          (⟨k, walkForward, w, mw, fr⟩ : SeqConfig)
        = seqFoldStep fitT applyT modelFit modelPredict scoreFn X y metric
          (⟨k', walkForward, w, mw, fr⟩ : SeqConfig) := by
    funext st i
    simp [seqFoldStep, SeqConfig.foldStart, SeqConfig.foldEnd,
      SeqConfig.foldTrainEnd, SeqConfig.foldSize]
  unfold sequence_cross_validate
  rw [hstep]
  simp [SeqConfig.nFolds]

/-- C10: under 'walk-forward', fold_end equals (i + 1) + min_window and
for every iterated fold index it is at most len(X) - forecast_range, so
no evaluation window reaches into the last forecast_range rows. -/
theorem walk_forward_eval_windows_bounded (c : SeqConfig)
    (hs : c.strategy = walkForward) (L : ℤ) (i : ℕ)
    (hi : i < (c.nFolds L).toNat) :
    c.foldEnd L (i : ℤ) = ((i : ℤ) + 1) + c.min_window
    ∧ c.foldEnd L (i : ℤ) ≤ L - c.forecast_range := by
  have h1 : c.foldSize L = 1 := by simp [SeqConfig.foldSize, hs]
  rw [SeqConfig.nFolds, if_pos hs] at hi
  constructor
  · rw [SeqConfig.foldEnd, h1]
    ring
  · rw [SeqConfig.foldEnd, h1]
    omega

/-- C10 witness: the bound instantiated at a 10-row walk-forward run
with min_window = 1, forecast_range = 1, fold index 3. -/
theorem walk_forward_eval_windows_bounded_witness :
    SeqConfig.foldEnd ⟨3, walkForward, cumulative, 1, 1⟩ 10 ((3 : ℕ) : ℤ)
        = (((3 : ℕ) : ℤ) + 1) + 1
    ∧ SeqConfig.foldEnd ⟨3, walkForward, cumulative, 1, 1⟩ 10 ((3 : ℕ) : ℤ) ≤ 10 - 1 :=
  walk_forward_eval_windows_bounded ⟨3, walkForward, cumulative, 1, 1⟩ rfl 10 3 (by decide)

/-- C7 (amended): in both routines the transform set is refit on each
fold's training split only and applied to both splits, but each fold's
fit_transforms call receives the previous fold's fitted result (the
reassigned `transforms` variable), not the caller-supplied
specification. -/
theorem transforms_threaded_refit (X : List ρ) (y : List ℚ) (metric : σ) (t0 : τ) :
    (∀ (folds : List (List ℕ × List ℕ)) (f : List ℕ × List ℕ),
      (cross_validate_folds fitT applyT modelFit modelPredict scoreFn X y metric t0 (folds ++ [f])).transforms
        = fitT (selRows X f.1) (selRows y f.1)
            ((cross_validate_folds fitT applyT modelFit modelPredict scoreFn X y metric t0 folds).transforms))
    ∧ (∀ (folds : List (List ℕ × List ℕ)) (f : List ℕ × List ℕ),
      (cross_validate_folds fitT applyT modelFit modelPredict scoreFn X y metric t0 (folds ++ [f])).yPred
        = (cross_validate_folds fitT applyT modelFit modelPredict scoreFn X y metric t0 folds).yPred
          ++ modelPredict
              (modelFit
                (applyT (selRows X f.1)
                  (fitT (selRows X f.1) (selRows y f.1)
                    ((cross_validate_folds fitT applyT modelFit modelPredict scoreFn X y metric t0 folds).transforms)))
                (selRows y f.1))
              (applyT (selRows X f.2)
                (fitT (selRows X f.1) (selRows y f.1)
                  ((cross_validate_folds fitT applyT modelFit modelPredict scoreFn X y metric t0 folds).transforms))))
    ∧ (∀ (c : SeqConfig) (n : ℕ),
      seqTransAt fitT X y c t0 (n + 1)
        = fitT
            (pySlice X (c.foldStart (X.length : ℤ) (n : ℤ)) (c.foldTrainEnd (X.length : ℤ) (n : ℤ)))
            (pySlice y (c.foldStart (X.length : ℤ) (n : ℤ)) (c.foldTrainEnd (X.length : ℤ) (n : ℤ)))
            (seqTransAt fitT X y c t0 n)) := by
  refine ⟨fun folds f => ?_, fun folds f => ?_, fun c n => rfl⟩
  · unfold cross_validate_folds
    rw [List.foldl_append]
    rfl
  · unfold cross_validate_folds
    rw [List.foldl_append]
    rfl

/-- C7 counterexample: with a transform collaborator whose fitted state
counts its refits, the `transforms` state passed into the next
fit_transforms call after one fold is 1, not the caller-supplied
specification 0 — the variable is reassigned, so the next fold's call
does not receive the caller's specification. -/
theorem transforms_arg_counterexample :
    (cross_validate_folds (fun (_ : List ℕ) (_ : List ℚ) (t : ℕ) => t + 1)
        (fun Xs _ => Xs) (fun _ _ => ()) (fun _ Xs => Xs.map (fun _ => (0 : ℚ)))
        (fun _ _ (_ : Unit) => (0 : ℚ))
        (List.range 4) (List.replicate 4 (0 : ℚ)) () 0 [([0, 1], [2, 3])]).transforms ≠ 0 := by
  decide

/-- C4 (amended): for 10 rows, n_folds = 5, strategy traditional,
window_type cumulative, min_window = 0, forecast_range = 1: fold_size is
2, fold 0 trains on rows [0,1) and evaluates on row [1,2), and fold 4
trains on rows [0,9) and evaluates on row [9,10). -/
theorem seq_traditional_ten_rows_folds :
    SeqConfig.foldSize ⟨5, traditional, cumulative, 0, 1⟩ 10 = 2
    ∧ pySlice (List.range 10)
        (SeqConfig.foldStart ⟨5, traditional, cumulative, 0, 1⟩ 10 0)
        (SeqConfig.foldTrainEnd ⟨5, traditional, cumulative, 0, 1⟩ 10 0) = [0]
    ∧ pySlice (List.range 10)
        (SeqConfig.foldTrainEnd ⟨5, traditional, cumulative, 0, 1⟩ 10 0)
        (SeqConfig.foldEnd ⟨5, traditional, cumulative, 0, 1⟩ 10 0) = [1]
    ∧ pySlice (List.range 10)
        (SeqConfig.foldStart ⟨5, traditional, cumulative, 0, 1⟩ 10 4)
        (SeqConfig.foldTrainEnd ⟨5, traditional, cumulative, 0, 1⟩ 10 4)
        = [0, 1, 2, 3, 4, 5, 6, 7, 8]
    ∧ pySlice (List.range 10)
        (SeqConfig.foldTrainEnd ⟨5, traditional, cumulative, 0, 1⟩ 10 4)
        (SeqConfig.foldEnd ⟨5, traditional, cumulative, 0, 1⟩ 10 4) = [9] := by
  decide

/-- C4 counterexample: in the same configuration, fold 4's training
split is not rows [0,7) and its evaluation split is not row [8,9):
fold_end is 10 and fold_train_end is 9. -/
theorem seq_traditional_ten_rows_fold4_counterexample :
    pySlice (List.range 10)
        (SeqConfig.foldStart ⟨5, traditional, cumulative, 0, 1⟩ 10 4)
        (SeqConfig.foldTrainEnd ⟨5, traditional, cumulative, 0, 1⟩ 10 4)
        ≠ [0, 1, 2, 3, 4, 5, 6]
    ∧ pySlice (List.range 10)
        (SeqConfig.foldTrainEnd ⟨5, traditional, cumulative, 0, 1⟩ 10 4)
        (SeqConfig.foldEnd ⟨5, traditional, cumulative, 0, 1⟩ 10 4) ≠ [8] := by
  decide

/-- C6 (amended): the training start index is 0 for every fold whenever
window_type is not 'fixed' (in particular for 'cumulative'), and under
'fixed' it is strictly increasing in the fold index provided fold_size
is at least 1 (always true for walk-forward; true for traditional
exactly when n_folds does not exceed the row count). -/
theorem fold_start_cumulative_zero_fixed_mono (c : SeqConfig) (L i j : ℤ) :
    (c.window_type ≠ fixedWindow → c.foldStart L i = 0)
    ∧ (c.window_type = fixedWindow → 1 ≤ c.foldSize L → 0 ≤ i → i < j →
        c.foldStart L i < c.foldStart L j) := by
  constructor
  · intro h
    simp [SeqConfig.foldStart, h]
  · intro h h1 h0 hij
    rw [SeqConfig.foldStart, if_pos h, SeqConfig.foldStart, if_pos h]
    exact mul_lt_mul_of_pos_right hij (lt_of_lt_of_le zero_lt_one h1)

/-- C6 witness: cumulative start is 0 at fold 3 of a 4-row run, and
fixed-window starts strictly increase between folds 0 and 1 when
fold_size = 2 (4 rows, 2 folds). -/
theorem fold_start_cumulative_zero_fixed_mono_witness :
    SeqConfig.foldStart ⟨5, traditional, cumulative, 0, 1⟩ 4 3 = 0
    ∧ SeqConfig.foldStart ⟨2, traditional, fixedWindow, 0, 1⟩ 4 0
        < SeqConfig.foldStart ⟨2, traditional, fixedWindow, 0, 1⟩ 4 1 :=
  ⟨(fold_start_cumulative_zero_fixed_mono ⟨5, traditional, cumulative, 0, 1⟩ 4 3 3).1 (by decide),
   (fold_start_cumulative_zero_fixed_mono ⟨2, traditional, fixedWindow, 0, 1⟩ 4 0 1).2
     rfl (by decide) (by decide) (by decide)⟩

/-- C6 counterexample: with 3 rows and n_folds = 5 (traditional,
fixed window), fold_size is 0, folds 0 and 1 are both iterated
(nFolds = 5), and the training start index is 0 for both — it does not
strictly increase with the fold index. -/
theorem fold_start_fixed_constant_counterexample :
    (1 : ℤ) < SeqConfig.nFolds ⟨5, traditional, fixedWindow, 0, 1⟩ 3
    ∧ SeqConfig.foldStart ⟨5, traditional, fixedWindow, 0, 1⟩ 3 0
        = SeqConfig.foldStart ⟨5, traditional, fixedWindow, 0, 1⟩ 3 1
    ∧ ¬ SeqConfig.foldStart ⟨5, traditional, fixedWindow, 0, 1⟩ 3 0
        < SeqConfig.foldStart ⟨5, traditional, fixedWindow, 0, 1⟩ 3 1 := by
  decide

theorem pySlice_length_of_bounds {α : Type} (l : List α) (a b : ℤ)
    (h0 : 0 ≤ a) (hab : a ≤ b) (hb : b ≤ (l.length : ℤ)) :
    ((pySlice l a b).length : ℤ) = b - a := by
  unfold pySlice sliceIdx
  rw [if_neg (by omega), if_neg (by omega)]
  simp only [List.length_drop, List.length_take]
  omega

/-- C5 (amended): under 'walk-forward', for every 0 ≤ min_window and
0 ≤ forecast_range with min_window + forecast_range < len(X), the loop
iterates exactly len(X) - min_window - forecast_range folds; and
provided additionally forecast_range ≤ min_window + 1 (so that
fold_train_end is never negative and the slice does not wrap), every
iterated fold's evaluation split has exactly forecast_range samples. -/
theorem walk_forward_fold_count_eval_size {α : Type} (c : SeqConfig)
    (hs : c.strategy = walkForward) (X : List α)
    (h1 : c.min_window + c.forecast_range < (X.length : ℤ))
    (h2 : 0 ≤ c.min_window) (h3 : 0 ≤ c.forecast_range) :
    ((intRange (c.nFolds (X.length : ℤ))).length : ℤ)
        = (X.length : ℤ) - c.min_window - c.forecast_range
    ∧ (c.forecast_range ≤ c.min_window + 1 →
        ∀ i : ℕ, i < (c.nFolds (X.length : ℤ)).toNat →
        ((pySlice X (c.foldTrainEnd (X.length : ℤ) (i : ℤ)) (c.foldEnd (X.length : ℤ) (i : ℤ))).length : ℤ)
          = c.forecast_range) := by
  have hsz : c.foldSize (X.length : ℤ) = 1 := by simp [SeqConfig.foldSize, hs]
  have hnf : c.nFolds (X.length : ℤ)
      = (X.length : ℤ) - c.min_window - c.forecast_range := by
    rw [SeqConfig.nFolds, if_pos hs]
  constructor
  · rw [hnf]
    unfold intRange
    simp only [List.length_map, List.length_range]
    omega
  · intro h4 i hi
    rw [hnf] at hi
    have he : c.foldEnd (X.length : ℤ) (i : ℤ) = (i : ℤ) + 1 + c.min_window := by
      rw [SeqConfig.foldEnd, hsz]
      ring
    have hte : c.foldTrainEnd (X.length : ℤ) (i : ℤ)
        = (i : ℤ) + 1 + c.min_window - c.forecast_range := by
      rw [SeqConfig.foldTrainEnd, he]
    rw [hte, he]
    rw [pySlice_length_of_bounds X _ _ (by omega) (by omega) (by omega)]
    omega

/-- C5 witness: walk-forward on 6 rows with min_window = 1 and
forecast_range = 1 iterates 6 - 1 - 1 = 4 folds and fold 3's evaluation
split has exactly 1 sample. -/
theorem walk_forward_fold_count_eval_size_witness :
    ((intRange (SeqConfig.nFolds ⟨9, walkForward, cumulative, 1, 1⟩ ((List.range 6).length : ℤ))).length : ℤ)
        = ((List.range 6).length : ℤ) - 1 - 1
    ∧ ((pySlice (List.range 6)
          (SeqConfig.foldTrainEnd ⟨9, walkForward, cumulative, 1, 1⟩ ((List.range 6).length : ℤ) ((3 : ℕ) : ℤ))
          (SeqConfig.foldEnd ⟨9, walkForward, cumulative, 1, 1⟩ ((List.range 6).length : ℤ) ((3 : ℕ) : ℤ))).length : ℤ)
        = 1 :=
  ⟨(walk_forward_fold_count_eval_size ⟨9, walkForward, cumulative, 1, 1⟩ rfl (List.range 6)
      (by decide) (by decide) (by decide)).1,
   (walk_forward_fold_count_eval_size ⟨9, walkForward, cumulative, 1, 1⟩ rfl (List.range 6)
      (by decide) (by decide) (by decide)).2 (by decide) 3 (by decide)⟩

/-- C5 counterexample: with 4 rows, min_window = 0 and forecast_range = 2
(so min_window + forecast_range < 4 and at least one fold is iterated),
fold 0 has fold_train_end = -1, the Python slice wraps around, and its
evaluation split is empty rather than of size forecast_range = 2. -/
theorem walk_forward_eval_size_counterexample :
    SeqConfig.min_window ⟨9, walkForward, cumulative, 0, 2⟩
        + SeqConfig.forecast_range ⟨9, walkForward, cumulative, 0, 2⟩
        < ((List.range 4).length : ℤ)
    ∧ (0 : ℤ) < SeqConfig.nFolds ⟨9, walkForward, cumulative, 0, 2⟩ ((List.range 4).length : ℤ)
    ∧ SeqConfig.foldTrainEnd ⟨9, walkForward, cumulative, 0, 2⟩ ((List.range 4).length : ℤ) 0 = -1
    ∧ ((pySlice (List.range 4)
          (SeqConfig.foldTrainEnd ⟨9, walkForward, cumulative, 0, 2⟩ ((List.range 4).length : ℤ) 0)
          (SeqConfig.foldEnd ⟨9, walkForward, cumulative, 0, 2⟩ ((List.range 4).length : ℤ) 0)).length : ℤ)
        ≠ SeqConfig.forecast_range ⟨9, walkForward, cumulative, 0, 2⟩ := by
  decide

theorem length_filter_mem (n : ℕ) (block : List ℕ) (hnd : block.Nodup)
    (hlt : ∀ x ∈ block, x < n) :
    ((List.range n).filter (fun j => j ∈ block)).length = block.length := by
  have hsub1 : ((List.range n).filter (fun j => j ∈ block)) ⊆ block := by
    intro x hx
    have h := List.of_mem_filter hx
    simpa using h
  have hsub2 : block ⊆ ((List.range n).filter (fun j => j ∈ block)) := by
    intro x hx
    exact List.mem_filter.mpr ⟨List.mem_range.mpr (hlt x hx), by simpa using hx⟩
  have h1 := List.subperm_of_subset ((List.nodup_range n).filter _) hsub1
  have h2 := List.subperm_of_subset hnd hsub2
  exact Nat.le_antisymm h1.length_le h2.length_le

theorem kfoldTest_sublist (idxs : List ℕ) (k i : ℕ) :
    (kfoldTest idxs k i).Sublist idxs :=
  (List.take_sublist _ _).trans (List.drop_sublist _ _)

theorem kfoldTest_length_100 (idxs : List ℕ) (hL : idxs.length = 100)
    (i : ℕ) (hi : i < 5) :
    (kfoldTest idxs 5 i).length = 20 := by
  unfold kfoldTest kfoldSize kfoldStart
  simp only [List.length_take, List.length_drop, hL]
  norm_num
  omega

theorem kfold_eval_length_100 (idxs : List ℕ)
    (hperm : idxs.Perm (List.range 100)) (i : ℕ) (hi : i < 5) :
    ((List.range idxs.length).filter (fun j => j ∈ kfoldTest idxs 5 i)).length = 20 := by
  have hL : idxs.length = 100 := by
    have h := hperm.length_eq
    simpa using h
  have hnd : idxs.Nodup := hperm.nodup_iff.mpr (List.nodup_range 100)
  rw [hL]
  rw [length_filter_mem 100 _ ((kfoldTest_sublist idxs 5 i).nodup hnd)
    (fun x hx => by
      have hxi : x ∈ idxs := (kfoldTest_sublist idxs 5 i).subset hx
      have hxr : x ∈ List.range 100 := hperm.subset hxi
      exact List.mem_range.mp hxr)]
  exact kfoldTest_length_100 idxs hL i hi

theorem cvPredBlocks_lengths (hA : ApplyPreservesLength applyT)
    (hP : PredictPreservesLength modelPredict)
    (X : List ρ) (y : List ℚ) (folds : List (List ℕ × List ℕ)) (t : τ) :
    (cvPredBlocks fitT applyT modelFit modelPredict X y folds t).map List.length
      = folds.map (fun f => f.2.length) := by
  induction folds generalizing t with
  | nil => simp [cvPredBlocks]
  | cons f fs ih =>
    simp only [cvPredBlocks, List.map_cons]
    rw [hP, hA, ih]
    simp [selRows]

theorem events_flatten_count (fs : List (List ℕ × List ℕ)) :
    ((fs.map (fun _ => [CVEvent.fitCall, CVEvent.predictCall, CVEvent.predictCall])).flatten.count CVEvent.fitCall
        = fs.length)
    ∧ ((fs.map (fun _ => [CVEvent.fitCall, CVEvent.predictCall, CVEvent.predictCall])).flatten.count CVEvent.predictCall
        = 2 * fs.length) := by
  have hc1 : [CVEvent.fitCall, CVEvent.predictCall, CVEvent.predictCall].count CVEvent.fitCall = 1 := by
    decide
  have hc2 : [CVEvent.fitCall, CVEvent.predictCall, CVEvent.predictCall].count CVEvent.predictCall = 2 := by
    decide
  induction fs with
  | nil => simp
  | cons f fs ih =>
    simp only [List.map_cons, List.flatten_cons, List.count_append, List.length_cons,
      ih.1, ih.2, hc1, hc2]
    omega

/-- C3 (amended): for 100 rows and n_folds = 5, `cross_validate` invokes
the model's fit exactly 5 times and the model's predict exactly 10 times
— twice per fold: once on the training split for the training score and
once on the evaluation split — and returns one scalar computed by a
single scorer call over exactly 100 aggregated evaluation
predictions. Quantified over every shuffle outcome `idxs` of the seeded
RNG. -/
theorem cv_100_rows_five_folds_calls (idxs : List ℕ)
    (hperm : idxs.Perm (List.range 100))
    (hA : ApplyPreservesLength applyT) (hP : PredictPreservesLength modelPredict)
    (X : List ρ) (y : List ℚ) (metric : σ) (t0 : τ) :
    (cross_validate_folds fitT applyT modelFit modelPredict scoreFn X y metric t0
        (kfold idxs 5)).events.count CVEvent.fitCall = 5
    ∧ (cross_validate_folds fitT applyT modelFit modelPredict scoreFn X y metric t0
        (kfold idxs 5)).events.count CVEvent.predictCall = 2 * 5
    ∧ (cross_validate_folds fitT applyT modelFit modelPredict scoreFn X y metric t0
        (kfold idxs 5)).yPred.length = 100
    ∧ cross_validate fitT applyT modelFit modelPredict scoreFn X y metric t0 idxs 5
        = scoreFn
            (cross_validate_folds fitT applyT modelFit modelPredict scoreFn X y metric t0
              (kfold idxs 5)).yTrue
            (cross_validate_folds fitT applyT modelFit modelPredict scoreFn X y metric t0
              (kfold idxs 5)).yPred
            metric := by
  have hk : (kfold idxs 5).length = 5 := by
    simp [kfold]
  refine ⟨?_, ?_, ?_, rfl⟩
  · unfold cross_validate_folds
    rw [cvFoldl_eq]
    simpa using (events_flatten_count (kfold idxs 5)).1.trans hk
  · unfold cross_validate_folds
    rw [cvFoldl_eq]
    simpa using (events_flatten_count (kfold idxs 5)).2.trans (by rw [hk])
  · unfold cross_validate_folds
    rw [cvFoldl_eq]
    simp only [List.nil_append, List.length_flatten]
    rw [cvPredBlocks_lengths fitT applyT modelFit modelPredict hA hP]
    unfold kfold
    rw [List.map_map]
    rw [List.map_congr_left (g := fun _ => 20) (fun i hi => by
      have h5 : i < 5 := List.mem_range.mp hi
      simpa using kfold_eval_length_100 idxs hperm i h5)]
    decide

/-- C3 witness: the call counts instantiated with the identity shuffle
and concrete trivial collaborators on a 100-row dataset. -/
theorem cv_100_rows_five_folds_calls_witness :
    (cross_validate_folds (fun (_ : List ℕ) (_ : List ℚ) (t : ℕ) => t)
        (fun Xs _ => Xs) (fun _ _ => ()) (fun _ Xs => Xs.map (fun _ => (0 : ℚ)))
        (fun _ _ (_ : Unit) => (0 : ℚ)) (List.range 100) (List.replicate 100 (0 : ℚ)) () 0
        (kfold (List.range 100) 5)).events.count CVEvent.fitCall = 5
    ∧ (cross_validate_folds (fun (_ : List ℕ) (_ : List ℚ) (t : ℕ) => t)
        (fun Xs _ => Xs) (fun _ _ => ()) (fun _ Xs => Xs.map (fun _ => (0 : ℚ)))
        (fun _ _ (_ : Unit) => (0 : ℚ)) (List.range 100) (List.replicate 100 (0 : ℚ)) () 0
        (kfold (List.range 100) 5)).events.count CVEvent.predictCall = 2 * 5
    ∧ (cross_validate_folds (fun (_ : List ℕ) (_ : List ℚ) (t : ℕ) => t)
        (fun Xs _ => Xs) (fun _ _ => ()) (fun _ Xs => Xs.map (fun _ => (0 : ℚ)))
        (fun _ _ (_ : Unit) => (0 : ℚ)) (List.range 100) (List.replicate 100 (0 : ℚ)) () 0
        (kfold (List.range 100) 5)).yPred.length = 100
    ∧ cross_validate (fun (_ : List ℕ) (_ : List ℚ) (t : ℕ) => t)
        (fun Xs _ => Xs) (fun _ _ => ()) (fun _ Xs => Xs.map (fun _ => (0 : ℚ)))
        (fun _ _ (_ : Unit) => (0 : ℚ)) (List.range 100) (List.replicate 100 (0 : ℚ)) () 0
        (List.range 100) 5
        = (fun _ _ (_ : Unit) => (0 : ℚ))
            (cross_validate_folds (fun (_ : List ℕ) (_ : List ℚ) (t : ℕ) => t)
              (fun Xs _ => Xs) (fun _ _ => ()) (fun _ Xs => Xs.map (fun _ => (0 : ℚ)))
              (fun _ _ (_ : Unit) => (0 : ℚ)) (List.range 100) (List.replicate 100 (0 : ℚ)) () 0
              (kfold (List.range 100) 5)).yTrue
            (cross_validate_folds (fun (_ : List ℕ) (_ : List ℚ) (t : ℕ) => t)
              (fun Xs _ => Xs) (fun _ _ => ()) (fun _ Xs => Xs.map (fun _ => (0 : ℚ)))
              (fun _ _ (_ : Unit) => (0 : ℚ)) (List.range 100) (List.replicate 100 (0 : ℚ)) () 0
              (kfold (List.range 100) 5)).yPred
            () :=
  cv_100_rows_five_folds_calls (fun (_ : List ℕ) (_ : List ℚ) (t : ℕ) => t)
    (fun Xs _ => Xs) (fun _ _ => ()) (fun _ Xs => Xs.map (fun _ => (0 : ℚ)))
    (fun _ _ (_ : Unit) => (0 : ℚ)) (List.range 100) (List.Perm.refl _)
    (fun _ _ => rfl) (fun _ Xs => by simp)
    (List.range 100) (List.replicate 100 (0 : ℚ)) () 0

/-- C3 counterexample: the model's predict is not invoked exactly 5
times — with the identity shuffle (the count is the same for every
shuffle outcome) the loop records 10 predict calls for 100 rows and 5
folds, because each fold predicts once on the training split for the
training score and once on the evaluation split. -/
theorem cv_100_rows_predict_count_counterexample :
    ¬ (cross_validate_folds (fun (_ : List ℕ) (_ : List ℚ) (t : ℕ) => t)
        (fun Xs _ => Xs) (fun _ _ => ()) (fun _ Xs => Xs.map (fun _ => (0 : ℚ)))
        (fun _ _ (_ : Unit) => (0 : ℚ)) (List.range 100) (List.replicate 100 (0 : ℚ)) () 0
        (kfold (List.range 100) 5)).events.count CVEvent.predictCall = 5 := by
  decide

theorem cvPredBlocks_of_pure (hT : TransformsRefitPure fitT)
    (X : List ρ) (y : List ℚ) (t0 : τ) (folds : List (List ℕ × List ℕ)) (t : τ) :
    cvPredBlocks fitT applyT modelFit modelPredict X y folds t
      = folds.map (cvPredOf fitT applyT modelFit modelPredict X y t0) := by
  induction folds generalizing t with
  | nil => simp [cvPredBlocks]
  | cons f fs ih =>
    simp only [cvPredBlocks, List.map_cons, cvPredOf]
    rw [hT (selRows X f.1) (selRows y f.1) t t0, ih]

theorem cvPredOf_length (hA : ApplyPreservesLength applyT)
    (hP : PredictPreservesLength modelPredict)
    (X : List ρ) (y : List ℚ) (t0 : τ) (f : List ℕ × List ℕ) :
    (cvPredOf fitT applyT modelFit modelPredict X y t0 f).length = f.2.length := by
  unfold cvPredOf
  rw [hP, hA]
  simp [selRows]

theorem cvReturn_eq_pairs (hT : TransformsRefitPure fitT)
    (hA : ApplyPreservesLength applyT) (hP : PredictPreservesLength modelPredict)
    (X : List ρ) (y : List ℚ) (metric : σ) (t0 : τ)
    (folds : List (List ℕ × List ℕ)) :
    cvReturn fitT applyT modelFit modelPredict scoreFn X y metric t0 folds
      = scoreFn
          (((folds.map (fun f => (selRows y f.2).zip
              (cvPredOf fitT applyT modelFit modelPredict X y t0 f))).flatten).map Prod.fst)
          (((folds.map (fun f => (selRows y f.2).zip
              (cvPredOf fitT applyT modelFit modelPredict X y t0 f))).flatten).map Prod.snd)
          metric := by
  have hlen : ∀ f : List ℕ × List ℕ,
      (selRows y f.2).length
        = (cvPredOf fitT applyT modelFit modelPredict X y t0 f).length := by
    intro f
    rw [cvPredOf_length fitT applyT modelFit modelPredict hA hP]
    simp [selRows]
  have h1 : (((folds.map (fun f => (selRows y f.2).zip
        (cvPredOf fitT applyT modelFit modelPredict X y t0 f))).flatten).map Prod.fst)
      = (folds.map (fun f => selRows y f.2)).flatten := by
    rw [List.map_flatten, List.map_map]
    congr 1
    exact List.map_congr_left (fun f _ => by
      exact List.map_fst_zip _ _ (le_of_eq (hlen f)))
  have h2 : (((folds.map (fun f => (selRows y f.2).zip
        (cvPredOf fitT applyT modelFit modelPredict X y t0 f))).flatten).map Prod.snd)
      = (folds.map (cvPredOf fitT applyT modelFit modelPredict X y t0)).flatten := by
    rw [List.map_flatten, List.map_map]
    congr 1
    exact List.map_congr_left (fun f _ => by
      exact List.map_snd_zip _ _ (le_of_eq (hlen f).symm))
  rw [h1, h2]
  unfold cvReturn cross_validate_folds
  rw [cvFoldl_eq]
  simp only [List.nil_append]
  rw [cvPredBlocks_of_pure fitT applyT modelFit modelPredict hT X y t0]

/-- C8: the score returned by `cross_validate` is invariant under the
order in which the folds are processed: for every permutation of the
fold list the returned score is identical, because the score is one
scorer call over the full concatenated prediction and label sets (the
scorer depending only on the multiset of prediction/label pairs, and the
transform refit depending only on each fold's training split). -/
theorem cv_score_fold_order_invariant (hT : TransformsRefitPure fitT)
    (hA : ApplyPreservesLength applyT) (hP : PredictPreservesLength modelPredict)
    (hS : ScorerPermInvariant scoreFn)
    (X : List ρ) (y : List ℚ) (metric : σ) (t0 : τ)
    (folds folds' : List (List ℕ × List ℕ)) (hp : folds.Perm folds') :
    cvReturn fitT applyT modelFit modelPredict scoreFn X y metric t0 folds
      = cvReturn fitT applyT modelFit modelPredict scoreFn X y metric t0 folds' := by
  rw [cvReturn_eq_pairs fitT applyT modelFit modelPredict scoreFn hT hA hP X y metric t0 folds,
    cvReturn_eq_pairs fitT applyT modelFit modelPredict scoreFn hT hA hP X y metric t0 folds']
  exact hS metric _ _ (perm_flatten_of_perm (hp.map _))

/-- C8 witness: the invariance instantiated at a two-fold list and its
transposition with concrete collaborators (a scorer reading only the
lengths of its arguments, hence permutation-invariant). -/
theorem cv_score_fold_order_invariant_witness :
    cvReturn (fun (_ : List ℕ) (_ : List ℚ) (_ : ℕ) => 0) (fun Xs _ => Xs)
        (fun _ _ => ()) (fun _ Xs => Xs.map (fun _ => (0 : ℚ)))
        (fun yt yp (_ : Unit) => (yt.length : ℚ) + (yp.length : ℚ))
        [10, 20] [1, 2] () 0 [([0], [1]), ([1], [0])]
      = cvReturn (fun (_ : List ℕ) (_ : List ℚ) (_ : ℕ) => 0) (fun Xs _ => Xs)
        (fun _ _ => ()) (fun _ Xs => Xs.map (fun _ => (0 : ℚ)))
        (fun yt yp (_ : Unit) => (yt.length : ℚ) + (yp.length : ℚ))
        [10, 20] [1, 2] () 0 [([1], [0]), ([0], [1])] :=
  cv_score_fold_order_invariant (fun (_ : List ℕ) (_ : List ℚ) (_ : ℕ) => 0)
    (fun Xs _ => Xs) (fun _ _ => ()) (fun _ Xs => Xs.map (fun _ => (0 : ℚ)))
    (fun yt yp (_ : Unit) => (yt.length : ℚ) + (yp.length : ℚ))
    (fun _ _ _ _ => rfl) (fun _ _ => rfl) (fun _ Xs => by simp)
    (fun _ ps qs h => by simp [(h.map Prod.fst).length_eq, (h.map Prod.snd).length_eq])
    [10, 20] [1, 2] () 0 _ _ (List.Perm.swap ([1], [0]) ([0], [1]) [])

end Ionyx
